import Mathlib

/-!
Shallow embedding of `src/OOP/FHNW/bankv2.py`.

Modelling choices:
* Python `float` amounts are modelled as exact rationals (`ℚ`); every
  arithmetic operation appearing in the program (addition, subtraction,
  multiplication by a rate) is translated literally.
* Python objects live on an explicit heap (`List (Nat × Account)` keyed by
  object reference); the bank's registry `_accounts` maps account ids to
  references.  This captures the aliasing between `Bank._fee_account` and the
  registry entry `"FEE-0001"`, which can diverge when `open_account` replaces
  the registry entry.
* Python `dict` is modelled as an association list where insertion replaces
  in place or appends, and lookup scans from the front.
* `str.lower` is modelled for ASCII strings (all type names in the program
  are ASCII).
* Exceptions are modelled with `Except`: a raised `ValueError` is an
  `.error`; in the source both raises happen before any mutation, so callers
  that catch keep the pre-call state.
-/

namespace BankV2

/-- Association-list lookup with the semantics of Python `dict.get`. -/
def dictGet {κ β : Type} [DecidableEq κ] (d : List (κ × β)) (k : κ) : Option β :=
  match d with
  | [] => none
  | (k', v) :: rest => if k = k' then some v else dictGet rest k

/-- Association-list update with the semantics of Python `d[k] = v`:
replace the binding in place when the key is present, append otherwise. -/
def dictInsert {κ β : Type} [DecidableEq κ] (d : List (κ × β)) (k : κ) (v : β) :
    List (κ × β) :=
  match d with
  | [] => [(k, v)]
  | (k', v') :: rest => if k = k' then (k, v) :: rest else (k', v') :: dictInsert rest k v

/-- ASCII lower-casing of a character, as `str.lower` acts on ASCII. -/
def lowerChar (c : Char) : Char :=
  if 'A' ≤ c ∧ c ≤ 'Z' then Char.ofNat (c.toNat + 32) else c

/-- ASCII `str.lower`. -/
def lower (s : String) : String := ⟨s.data.map lowerChar⟩

/-- Python slice `l[s:]` for an arbitrary integer `s`. -/
def pySliceFrom {α : Type} (l : List α) (s : Int) : List α :=
  let n : Int := l.length
  let start : Int := if s < 0 then max 0 (n + s) else min s n
  l.drop start.toNat

/-- Journal record (class `Transaction`). -/
structure Transaction where
  timestamp : Nat
  from_account : Option String
  to_account : Option String
  amount : ℚ
  usage : String := ""
deriving DecidableEq

/-- Per-account history record (class `TransactionEntry`). -/
structure TransactionEntry where
  timestamp : Nat
  counterparty : Option String
  amount : ℚ
  usage : String := ""
deriving DecidableEq

/-- The three concrete `WithdrawalPolicy` strategy classes. -/
inductive WithdrawalPolicy where
  | noOverdraft : WithdrawalPolicy
  | overdraft (overdraft_limit : ℚ) : WithdrawalPolicy
  | noWithdrawal : WithdrawalPolicy
deriving DecidableEq

/-- Dispatch of `WithdrawalPolicy.can_withdraw(balance, amount)`. -/
def WithdrawalPolicy.can_withdraw : WithdrawalPolicy → ℚ → ℚ → Bool
  | .noOverdraft, balance, amount => decide (balance ≥ amount)
  | .overdraft overdraft_limit, balance, amount =>
      decide ((balance - amount) ≥ -overdraft_limit)
  | .noWithdrawal, _, _ => false

/-- The two concrete `FeePolicy` strategy classes. -/
inductive FeePolicy where
  | noFee : FeePolicy
  | percentageFee (fee_rate : ℚ) : FeePolicy
deriving DecidableEq

/-- Dispatch of `FeePolicy.calculate_fee(amount)`. -/
def FeePolicy.calculate_fee : FeePolicy → ℚ → ℚ
  | .noFee, _ => 0
  | .percentageFee fee_rate, amount => amount * fee_rate

/-- State of an `Account` object.  `interest_rate` is `some r` exactly for
`SavingsAccount` instances (which alone carry that attribute and the
`apply_interest` method). -/
structure Account where
  account_id : String
  withdrawal_policy : WithdrawalPolicy
  fee_policy : FeePolicy
  balance : ℚ
  active : Bool
  transactions : List TransactionEntry
  interest_rate : Option ℚ
deriving DecidableEq

/-- `Account.__init__`. -/
def Account.new (account_id : String) (withdrawal_policy : WithdrawalPolicy)
    (fee_policy : FeePolicy) : Account :=
  { account_id := account_id
    withdrawal_policy := withdrawal_policy
    fee_policy := fee_policy
    balance := 0
    active := true
    transactions := []
    interest_rate := none }

/-- `SavingsAccount.__init__` (fixed `NoOverdraftPolicy`/`NoFeePolicy`). -/
def SavingsAccount.new (account_id : String) (interest_rate : ℚ) : Account :=
  { Account.new account_id .noOverdraft .noFee with interest_rate := some interest_rate }

/-- `Account.get_transactions(count)`; `count=None` returns a copy of the
whole history, otherwise the Python slice `transactions[-count:]`. -/
def Account.get_transactions (a : Account) (count : Option Int) : List TransactionEntry :=
  match count with
  | none => a.transactions
  | some c => pySliceFrom a.transactions (-c)

/-- `Account.close`: succeeds (deactivating the account) iff the balance is
exactly zero. -/
def Account.close (a : Account) : Account × Bool :=
  if a.balance = 0 then ({ a with active := false }, true) else (a, false)

/-- `Account._record_transaction`: append to the history. -/
def Account.record_transaction (a : Account) (entry : TransactionEntry) : Account :=
  { a with transactions := a.transactions ++ [entry] }

/-- `Account.deposit_amount`. -/
def Account.deposit_amount (a : Account) (amount : ℚ) : Account :=
  { a with balance := a.balance + amount }

/-- `Account.withdraw_amount`. -/
def Account.withdraw_amount (a : Account) (amount : ℚ) : Account :=
  { a with balance := a.balance - amount }

/-- `Account.can_withdraw`: delegate to the withdrawal policy. -/
def Account.can_withdraw (a : Account) (amount : ℚ) : Bool :=
  a.withdrawal_policy.can_withdraw a.balance amount

/-- `Account.calculate_fee`: delegate to the fee policy. -/
def Account.calculate_fee (a : Account) (amount : ℚ) : ℚ :=
  a.fee_policy.calculate_fee amount

/-- `SavingsAccount.apply_interest`: deposit `balance * interest_rate`;
no history entry is recorded.  On a non-savings account the method does
not exist, modelled as the identity. -/
def Account.apply_interest (a : Account) : Account :=
  match a.interest_rate with
  | some rate => a.deposit_amount (a.balance * rate)
  | none => a

/-- The three factories registered in `Bank.__init__` (the modelled fragment
of the arbitrary callables accepted by `register_account_type`). -/
inductive AccountFactory where
  | youth : AccountFactory
  | savings : AccountFactory
  | privateAccount : AccountFactory
deriving DecidableEq

/-- The account each factory builds, exactly as the lambdas in
`Bank.__init__`. -/
def AccountFactory.make : AccountFactory → String → Account
  | .youth, aid => Account.new aid .noOverdraft .noFee
  | .savings, aid => SavingsAccount.new aid (1 / 100)
  | .privateAccount, aid => Account.new aid (.overdraft 500) (.percentageFee (1 / 100))

/-- State of a `Bank` object.  `heap` is the object store (reference →
account state); `accounts` is `_accounts` (id → reference);
`fee_account` is the reference held by `_fee_account`. -/
structure Bank where
  heap : List (Nat × Account)
  next_ref : Nat
  accounts : List (String × Nat)
  journal : List Transaction
  current_timestamp : Nat
  account_id_counter : Nat
  account_factories : List (String × AccountFactory)
  fee_account : Nat
deriving DecidableEq

/-- `Bank.__init__`: empty journal, clock 0, id counter 1, the three
factories, and the fee account `"FEE-0001"` placed in the registry. -/
def Bank.init : Bank :=
  { heap := [(0, Account.new "FEE-0001" .noWithdrawal .noFee)]
    next_ref := 1
    accounts := [("FEE-0001", 0)]
    journal := []
    current_timestamp := 0
    account_id_counter := 1
    account_factories := [("youth", .youth), ("savings", .savings), ("private", .privateAccount)]
    fee_account := 0 }

/-- `Bank._get_timestamp`: pre-increment the clock and return the new value. -/
def Bank.get_timestamp (b : Bank) : Bank × Nat :=
  ({ b with current_timestamp := b.current_timestamp + 1 }, b.current_timestamp + 1)

/-- `Bank.register_account_type`. -/
def Bank.register_account_type (b : Bank) (type_name : String) (factory : AccountFactory) :
    Bank :=
  { b with account_factories := dictInsert b.account_factories (lower type_name) factory }

/-- Zero-padding of `Bank._generate_account_id`; models `f"{n:06d}"`. -/
def natPad6 (n : Nat) : String :=
  let s := toString n
  String.mk (List.replicate (6 - s.length) '0') ++ s

/-- `Bank._generate_account_id`. -/
def Bank.generate_account_id (b : Bank) : Bank × String :=
  ({ b with account_id_counter := b.account_id_counter + 1 },
   "A" ++ natPad6 b.account_id_counter)

/-- `Bank.open_account`: case-insensitive factory lookup (raising
`ValueError` on a miss, before any mutation), id generation when none is
supplied, then unconditional registry insertion.  Returns the reference of
the freshly created account object. -/
def Bank.open_account (b : Bank) (account_type : String) (account_id : Option String) :
    Except String (Bank × Nat) :=
  let key := lower account_type
  match dictGet b.account_factories key with
  | none => .error ("Unbekannter Kontotyp: " ++ account_type)
  | some factory =>
    let p : Bank × String :=
      match account_id with
      | none => b.generate_account_id
      | some aid => (b, aid)
    let account := factory.make p.2
    let r := p.1.next_ref
    .ok ({ p.1 with
            heap := dictInsert p.1.heap r account
            next_ref := r + 1
            accounts := dictInsert p.1.accounts p.2 r }, r)

/-- Debit half of `Bank._execute_transaction`: when a source object is
given, lower its balance by `amount` and append the negative-signed entry
(whose counterparty is the destination object's id, read before any
mutation).  A heap miss cannot occur for references obtained from the
registry (the heap only grows) and leaves the heap unchanged. -/
def execDebit (h : List (Nat × Account)) (from_account to_account : Option Nat)
    (amount : ℚ) (ts : Nat) (usage : String) : List (Nat × Account) :=
  match from_account with
  | none => h
  | some fr =>
    match dictGet h fr with
    | none => h
    | some facc =>
      dictInsert h fr ((facc.withdraw_amount amount).record_transaction
        { timestamp := ts
          counterparty := to_account.bind fun tr => (dictGet h tr).map Account.account_id
          amount := -amount, usage := usage })

/-- Credit half of `Bank._execute_transaction`: when a destination object
is given, raise its balance by `amount` and append the positive-signed
entry (whose counterparty is the source object's id). -/
def execCredit (h : List (Nat × Account)) (from_account to_account : Option Nat)
    (amount : ℚ) (ts : Nat) (usage : String) : List (Nat × Account) :=
  match to_account with
  | none => h
  | some tr =>
    match dictGet h tr with
    | none => h
    | some tacc =>
      dictInsert h tr ((tacc.deposit_amount amount).record_transaction
        { timestamp := ts
          counterparty := from_account.bind fun fr => (dictGet h fr).map Account.account_id
          amount := amount, usage := usage })

/-- `Bank._execute_transaction`: raise on a non-positive amount (before any
mutation), draw one timestamp from `_get_timestamp` (pre-increment, so the
new clock value is the timestamp), debit/record on the source object,
credit/record on the destination object, then append one journal record
whose account ids are read from the objects. -/
def Bank.execute_transaction (b : Bank) (from_account to_account : Option Nat)
    (amount : ℚ) (usage : String) : Except String Bank :=
  if amount ≤ 0 then .error "Betrag muss positiv sein!"
  else
    let ts := b.current_timestamp + 1
    let h2 := execCredit (execDebit b.heap from_account to_account amount ts usage)
      from_account to_account amount ts usage
    .ok { b with
      current_timestamp := ts
      heap := h2
      journal := b.journal ++
        [{ timestamp := ts
           from_account := from_account.bind fun fr => (dictGet h2 fr).map Account.account_id
           to_account := to_account.bind fun tr => (dictGet h2 tr).map Account.account_id
           amount := amount
           usage := usage }] }

/-- `Bank.deposit_cash`: fail on unknown or inactive account; otherwise run
the cash-deposit transaction, catching the (amount ≤ 0) `ValueError`. -/
def Bank.deposit_cash (b : Bank) (account_id : String) (amount : ℚ) : Bank × Bool :=
  match dictGet b.accounts account_id with
  | none => (b, false)
  | some r =>
    match dictGet b.heap r with
    | none => (b, false)
    | some account =>
      if account.active then
        match b.execute_transaction none (some r) amount "Bareinzahlung" with
        | .ok b' => (b', true)
        | .error _ => (b, false)
      else (b, false)

/-- `Bank.transfer`: resolve both accounts, require both active, compute the
fee and the required total, consult the debit account's withdrawal policy,
then execute the principal transaction and — when the fee is positive — a
second transaction to the object held by `_fee_account`. -/
def Bank.transfer (b : Bank) (debit_account_id credit_account_id : String)
    (amount : ℚ) (usage : String) : Bank × Bool :=
  match dictGet b.accounts debit_account_id, dictGet b.accounts credit_account_id with
  | some dr, some cr =>
    match dictGet b.heap dr, dictGet b.heap cr with
    | some debit, some credit =>
      if debit.active && credit.active then
        let fee := debit.calculate_fee amount
        let total := amount + fee
        if debit.can_withdraw total then
          match b.execute_transaction (some dr) (some cr) amount usage with
          | .ok b1 =>
            if 0 < fee then
              let fee_usage := if usage = "" then "Gebühr" else "Gebühr: " ++ usage
              match b1.execute_transaction (some dr) (some b1.fee_account) fee fee_usage with
              | .ok b2 => (b2, true)
              | .error _ => (b1, false)
            else (b1, true)
          | .error _ => (b, false)
        else (b, false)
      else (b, false)
    | _, _ => (b, false)
  | _, _ => (b, false)

/-- `Bank.get_balance`. -/
def Bank.get_balance (b : Bank) (account_id : String) : Option ℚ :=
  ((dictGet b.accounts account_id).bind (dictGet b.heap)).map Account.balance

/-- `Bank.get_account_transactions`. -/
def Bank.get_account_transactions (b : Bank) (account_id : String) (count : Option Int) :
    Option (List TransactionEntry) :=
  ((dictGet b.accounts account_id).bind (dictGet b.heap)).map
    fun a => a.get_transactions count

/-- `Bank.get_bank_transactions`: the whole journal for `count=None`,
otherwise the Python slice `journal[-count:]`. -/
def Bank.get_bank_transactions (b : Bank) (count : Option Int) : List Transaction :=
  match count with
  | none => b.journal
  | some c => pySliceFrom b.journal (-c)

/-- `Bank.close_account`: fail on unknown, inactive, or non-zero-balance
accounts; otherwise delegate to `Account.close`. -/
def Bank.close_account (b : Bank) (account_id : String) : Bank × Bool :=
  match dictGet b.accounts account_id with
  | none => (b, false)
  | some r =>
    match dictGet b.heap r with
    | none => (b, false)
    | some account =>
      if account.active then
        if account.balance ≠ 0 then (b, false)
        else
          let p := account.close
          ({ b with heap := dictInsert b.heap r p.1 }, p.2)
      else (b, false)

/-- One state-mutating call of the public surface: the five mutating `Bank`
methods plus `apply_interest` on an account object designated by its heap
reference (callers hold object references).  Read-only queries do not
change the state and need no operation. -/
inductive Op where
  | open_account (account_type : String) (account_id : Option String) : Op
  | deposit_cash (account_id : String) (amount : ℚ) : Op
  | transfer (debit_account_id credit_account_id : String) (amount : ℚ) (usage : String) : Op
  | close_account (account_id : String) : Op
  | apply_interest (ref : Nat) : Op
  | register_account_type (type_name : String) (factory : AccountFactory) : Op
deriving DecidableEq

/-- Effect of one public call on the bank state (return values dropped; a
raised exception leaves the state unchanged, as both raises in the source
precede any mutation). -/
def Bank.step (b : Bank) : Op → Bank
  | .open_account t aid =>
    match b.open_account t aid with
    | .ok p => p.1
    | .error _ => b
  | .deposit_cash aid amount => (b.deposit_cash aid amount).1
  | .transfer d c amount usage => (b.transfer d c amount usage).1
  | .close_account aid => (b.close_account aid).1
  | .apply_interest r =>
    match dictGet b.heap r with
    | none => b
    | some a => { b with heap := dictInsert b.heap r a.apply_interest }
  | .register_account_type n f => b.register_account_type n f

/-- The bank state after a sequence of public calls on a fresh bank. -/
def Bank.run (ops : List Op) : Bank := ops.foldl Bank.step Bank.init

/-- Sum of the signed amounts of a history. -/
def sumAmounts (l : List TransactionEntry) : ℚ := (l.map TransactionEntry.amount).sum

/-- The books of one account balance: its balance is the sum of its recorded
entry amounts. -/
def accountBalanced (a : Account) : Prop := a.balance = sumAmounts a.transactions

/-- Every account object of a heap is balanced. -/
def heapBalanced (h : List (Nat × Account)) : Prop :=
  ∀ r a, dictGet h r = some a → accountBalanced a

/-- Every account object on the bank's heap is balanced. -/
def Bank.allBalanced (b : Bank) : Prop := heapBalanced b.heap

/-- Balance of the object held by `_fee_account` (0 on an impossible
dangling reference). -/
def Bank.feeBalance (b : Bank) : ℚ :=
  ((dictGet b.heap b.fee_account).map Account.balance).getD 0

theorem dictGet_dictInsert_self {κ β : Type} [DecidableEq κ]
    (d : List (κ × β)) (k : κ) (v : β) : dictGet (dictInsert d k v) k = some v := by
  induction d with
  | nil => simp [dictGet, dictInsert]
  | cons p rest ih =>
    obtain ⟨k', v'⟩ := p
    by_cases h : k = k' <;> simp [dictGet, dictInsert, h, ih]

theorem dictGet_dictInsert_ne {κ β : Type} [DecidableEq κ]
    (d : List (κ × β)) {k k' : κ} (v : β) (h : k' ≠ k) :
    dictGet (dictInsert d k v) k' = dictGet d k' := by
  induction d with
  | nil => simp [dictGet, dictInsert, h]
  | cons p rest ih =>
    obtain ⟨a, w⟩ := p
    by_cases hka : k = a
    · subst hka
      simp [dictGet, dictInsert, h]
    · by_cases hk'a : k' = a <;> simp [dictGet, dictInsert, hka, hk'a, ih]

theorem foldl_step_invariant (P : Bank → Prop) :
    ∀ (ops : List Op) (b : Bank), P b →
      (∀ op ∈ ops, ∀ b', P b' → P (b'.step op)) → P (ops.foldl Bank.step b)
  | [], _, hb, _ => hb
  | op :: ops, b, hb, hstep =>
    foldl_step_invariant P ops (b.step op) (hstep op (by simp) b hb)
      (fun o ho b' hb' => hstep o (by simp [ho]) b' hb')

theorem run_invariant (P : Bank → Prop) (h0 : P Bank.init)
    (hstep : ∀ b op, P b → P (b.step op)) (ops : List Op) : P (Bank.run ops) :=
  foldl_step_invariant P ops Bank.init h0 (fun op _ b hb => hstep b op hb)

theorem run_append (ops extra : List Op) :
    Bank.run (ops ++ extra) = extra.foldl Bank.step (Bank.run ops) := by
  simp [Bank.run, List.foldl_append]

theorem pySliceFrom_zero {α : Type} (l : List α) : pySliceFrom l 0 = l := by
  simp [pySliceFrom]

/-- C9: calling either transaction query with `count = 0` returns the whole
history — identical to the call without a count — because Python's
`l[-0:]` is `l[0:]`, the entire list, not the empty list. -/
theorem c9_count_zero (b : Bank) (a : Account) (aid : String) :
    b.get_bank_transactions (some 0) = b.get_bank_transactions none ∧
    a.get_transactions (some 0) = a.get_transactions none ∧
    b.get_account_transactions aid (some 0) = b.get_account_transactions aid none := by
  refine ⟨?_, ?_, ?_⟩ <;>
    simp [Bank.get_bank_transactions, Account.get_transactions,
      Bank.get_account_transactions, pySliceFrom_zero]

/-- C6: opening an account whose case-insensitive type name has no
registered factory raises the unknown-account-type `ValueError`, and the
bank state — in particular the account registry — is unchanged (the raise
precedes every mutation). -/
theorem c6_unknown_type (b : Bank) (t : String) (aid : Option String)
    (h : dictGet b.account_factories (lower t) = none) :
    b.open_account t aid = .error ("Unbekannter Kontotyp: " ++ t) ∧
    b.step (.open_account t aid) = b := by
  have h1 : b.open_account t aid = .error ("Unbekannter Kontotyp: " ++ t) := by
    simp [Bank.open_account, h]
  exact ⟨h1, by simp [Bank.step, h1]⟩

/-- Witness for C6 on the freshly initialised bank and the unregistered
type name "gold". -/
theorem c6_witness :
    Bank.init.open_account "gold" none = .error ("Unbekannter Kontotyp: " ++ "gold") ∧
    Bank.init.step (.open_account "gold" none) = Bank.init :=
  c6_unknown_type Bank.init "gold" none (by decide)

/-- C10: `open_account` with an explicitly supplied, already-registered id
(the fee account's id included) returns successfully — no error, no failure
indication — and rebinds the registry entry to a fresh account with zero
balance, active flag set, and empty history. -/
theorem c10_open_replaces (b : Bank) (t aid : String) (f : AccountFactory) (r0 : Nat)
    (hf : dictGet b.account_factories (lower t) = some f)
    (h0 : dictGet b.accounts aid = some r0) :
    b.open_account t (some aid) =
      .ok ({ b with heap := dictInsert b.heap b.next_ref (f.make aid)
                    next_ref := b.next_ref + 1
                    accounts := dictInsert b.accounts aid b.next_ref }, b.next_ref) ∧
    dictGet (dictInsert b.accounts aid b.next_ref) aid = some b.next_ref ∧
    dictGet (dictInsert b.heap b.next_ref (f.make aid)) b.next_ref = some (f.make aid) ∧
    (f.make aid).balance = 0 ∧ (f.make aid).active = true ∧
    (f.make aid).transactions = [] := by
  refine ⟨by simp [Bank.open_account, hf], dictGet_dictInsert_self _ _ _,
    dictGet_dictInsert_self _ _ _, ?_, ?_, ?_⟩ <;>
    cases f <;> simp [AccountFactory.make, Account.new, SavingsAccount.new]

/-- Witness for C10: replacing the fee-collection account's registry entry
`"FEE-0001"` on a freshly initialised bank with a new private account. -/
theorem c10_witness :
    Bank.init.open_account "private" (some "FEE-0001") =
      .ok ({ Bank.init with
              heap := dictInsert Bank.init.heap Bank.init.next_ref
                (AccountFactory.privateAccount.make "FEE-0001")
              next_ref := Bank.init.next_ref + 1
              accounts := dictInsert Bank.init.accounts "FEE-0001" Bank.init.next_ref },
            Bank.init.next_ref) ∧
    dictGet (dictInsert Bank.init.accounts "FEE-0001" Bank.init.next_ref) "FEE-0001" =
      some Bank.init.next_ref ∧
    dictGet (dictInsert Bank.init.heap Bank.init.next_ref
      (AccountFactory.privateAccount.make "FEE-0001")) Bank.init.next_ref =
      some (AccountFactory.privateAccount.make "FEE-0001") ∧
    (AccountFactory.privateAccount.make "FEE-0001").balance = 0 ∧
    (AccountFactory.privateAccount.make "FEE-0001").active = true ∧
    (AccountFactory.privateAccount.make "FEE-0001").transactions = [] :=
  c10_open_replaces Bank.init "private" "FEE-0001" .privateAccount 0
    (by decide) (by decide)

/-- C3: a transfer whose debit account's withdrawal policy denies the
required total (principal plus fee) returns `False` and leaves the bank —
both balances, both histories, and the global journal — unchanged. -/
theorem c3_transfer_denied (b : Bank) (d c u : String) (amount : ℚ)
    (dr cr : Nat) (debit credit : Account)
    (h1 : dictGet b.accounts d = some dr) (h2 : dictGet b.heap dr = some debit)
    (h3 : dictGet b.accounts c = some cr) (h4 : dictGet b.heap cr = some credit)
    (h5 : debit.can_withdraw (amount + debit.calculate_fee amount) = false) :
    b.transfer d c amount u = (b, false) := by
  by_cases hact : debit.active && credit.active <;>
    simp [Bank.transfer, h1, h2, h3, h4, h5, hact]

/-- Concrete no-overdraft debit account with balance 50 for the C3 witness. -/
def c3Debit : Account :=
  { Account.new "D" .noOverdraft .noFee with
      balance := 50
      transactions := [{ timestamp := 1, counterparty := none, amount := 50,
                         usage := "Bareinzahlung" }] }

/-- Concrete bank for the C3 witness: fee account, account "D" (no
overdraft, balance 50) and account "C". -/
def c3Bank : Bank :=
  { heap := [(0, Account.new "FEE-0001" .noWithdrawal .noFee), (1, c3Debit),
             (2, Account.new "C" .noOverdraft .noFee)]
    next_ref := 3
    accounts := [("FEE-0001", 0), ("D", 1), ("C", 2)]
    journal := [{ timestamp := 1, from_account := none, to_account := some "D",
                  amount := 50, usage := "Bareinzahlung" }]
    current_timestamp := 1
    account_id_counter := 1
    account_factories := [("youth", .youth), ("savings", .savings), ("private", .privateAccount)]
    fee_account := 0 }

/-- Witness for C3: transferring 100 out of the no-overdraft account "D"
with balance 50 fails and leaves the bank unchanged. -/
theorem c3_witness : c3Bank.transfer "D" "C" 100 "x" = (c3Bank, false) :=
  c3_transfer_denied c3Bank "D" "C" "x" 100 1 2 c3Debit
    (Account.new "C" .noOverdraft .noFee)
    (by simp [c3Bank, dictGet])
    (by simp [c3Bank, dictGet])
    (by simp [c3Bank, dictGet])
    (by simp [c3Bank, dictGet])
    (by simp [c3Debit, Account.new, Account.can_withdraw, Account.calculate_fee,
        WithdrawalPolicy.can_withdraw, FeePolicy.calculate_fee]
        norm_num)

/-- C4: a successful transfer of 100 out of an account with a 1% percentage
fee appends exactly two journal transactions — amount 100 to the
destination, then amount 1 to the fee-collection object — and lowers the
debit account's balance by exactly 101. -/
theorem c4_transfer_fee (b : Bank) (d c u : String) (dr cr : Nat)
    (debit credit feeAcc : Account)
    (h1 : dictGet b.accounts d = some dr) (h2 : dictGet b.heap dr = some debit)
    (h3 : dictGet b.accounts c = some cr) (h4 : dictGet b.heap cr = some credit)
    (h5 : debit.active = true) (h6 : credit.active = true)
    (h7 : debit.fee_policy = .percentageFee (1 / 100))
    (h8 : debit.can_withdraw 101 = true)
    (h9 : dr ≠ cr) (h10 : b.fee_account ≠ dr) (h11 : b.fee_account ≠ cr)
    (hf : dictGet b.heap b.fee_account = some feeAcc) :
    (b.transfer d c 100 u).2 = true ∧
    (b.transfer d c 100 u).1.journal = b.journal ++
      [{ timestamp := b.current_timestamp + 1, from_account := some debit.account_id,
         to_account := some credit.account_id, amount := 100, usage := u },
       { timestamp := b.current_timestamp + 2, from_account := some debit.account_id,
         to_account := some feeAcc.account_id, amount := 1,
         usage := if u = "" then "Gebühr" else "Gebühr: " ++ u }] ∧
    (dictGet (b.transfer d c 100 u).1.heap dr).map Account.balance =
      some (debit.balance - 101) := by
  have hcw : debit.can_withdraw (100 + debit.calculate_fee 100) = true := by
    have h101 : (100 : ℚ) + debit.calculate_fee 100 = 101 := by
      rw [Account.calculate_fee, h7]; norm_num [FeePolicy.calculate_fee]
    rw [h101]; exact h8
  have hfee : debit.calculate_fee 100 = 1 := by
    rw [Account.calculate_fee, h7]; norm_num [FeePolicy.calculate_fee]
  have h9' : cr ≠ dr := h9.symm
  have h10' : dr ≠ b.fee_account := h10.symm
  have h11' : cr ≠ b.fee_account := h11.symm
  simp only [Bank.transfer, h1, h2, h3, h4, h5, h6, Bool.and_self, if_true,
    Bank.execute_transaction, execDebit, execCredit, hcw, hfee]
  norm_num [dictGet_dictInsert_self, dictGet_dictInsert_ne, h2, h4, h8, hf, h9, h9', h10,
    h10', h11, h11', Account.record_transaction, Account.withdraw_amount,
    Account.deposit_amount]
  ring

/-- Concrete private account (1% fee, overdraft 500) with balance 500 for
the C4 witness. -/
def c4Debit : Account :=
  { Account.new "P" (.overdraft 500) (.percentageFee (1 / 100)) with
      balance := 500
      transactions := [{ timestamp := 1, counterparty := none, amount := 500,
                         usage := "Bareinzahlung" }] }

/-- Concrete bank for the C4 witness. -/
def c4Bank : Bank :=
  { heap := [(0, Account.new "FEE-0001" .noWithdrawal .noFee), (1, c4Debit),
             (2, Account.new "C" .noOverdraft .noFee)]
    next_ref := 3
    accounts := [("FEE-0001", 0), ("P", 1), ("C", 2)]
    journal := [{ timestamp := 1, from_account := none, to_account := some "P",
                  amount := 500, usage := "Bareinzahlung" }]
    current_timestamp := 1
    account_id_counter := 1
    account_factories := [("youth", .youth), ("savings", .savings), ("private", .privateAccount)]
    fee_account := 0 }

/-- Witness for C4: the concrete percentage-fee transfer of 100 out of
"P" (balance 500) succeeds, appends the two expected journal transactions
and lowers "P"'s balance by 101. -/
theorem c4_witness :
    (c4Bank.transfer "P" "C" 100 "x").2 = true ∧
    (c4Bank.transfer "P" "C" 100 "x").1.journal = c4Bank.journal ++
      [{ timestamp := c4Bank.current_timestamp + 1, from_account := some c4Debit.account_id,
         to_account := some (Account.new "C" .noOverdraft .noFee).account_id, amount := 100,
         usage := "x" },
       { timestamp := c4Bank.current_timestamp + 2, from_account := some c4Debit.account_id,
         to_account := some (Account.new "FEE-0001" .noWithdrawal .noFee).account_id,
         amount := 1,
         usage := if "x" = "" then "Gebühr" else "Gebühr: " ++ "x" }] ∧
    (dictGet (c4Bank.transfer "P" "C" 100 "x").1.heap 1).map Account.balance =
      some (c4Debit.balance - 101) :=
  c4_transfer_fee c4Bank "P" "C" "x" 1 2 c4Debit
    (Account.new "C" .noOverdraft .noFee) (Account.new "FEE-0001" .noWithdrawal .noFee)
    (by simp [c4Bank, dictGet]) (by simp [c4Bank, dictGet])
    (by simp [c4Bank, dictGet]) (by simp [c4Bank, dictGet])
    (by simp [c4Debit, Account.new]) (by simp [Account.new])
    (by simp [c4Debit, Account.new])
    (by simp [c4Debit, Account.new, Account.can_withdraw, WithdrawalPolicy.can_withdraw]
        norm_num)
    (by norm_num) (by simp [c4Bank]) (by simp [c4Bank])
    (by simp [c4Bank, dictGet])

/-- Counterexample to C7 as stated: a cash deposit's journal memo is the
German "Bareinzahlung", not the literal string "cash deposit". -/
theorem c7_counterexample :
    (Bank.init.deposit_cash "FEE-0001" 100).1.journal =
      [{ timestamp := 1, from_account := none, to_account := some "FEE-0001",
         amount := 100, usage := "Bareinzahlung" }] ∧
    "Bareinzahlung" ≠ "cash deposit" := by
  refine ⟨?_, by decide⟩
  norm_num [Bank.init, Bank.deposit_cash, Bank.execute_transaction, execDebit, execCredit,
    dictGet, dictInsert, Account.new, Account.deposit_amount, Account.record_transaction]

/-- C7 (amended): `deposit_cash` fails without mutation on an unknown or
inactive account and on a non-positive amount; on an active account with a
positive amount it credits the account by the amount and appends exactly
one journal transaction with no source account and memo "Bareinzahlung". -/
theorem c7_deposit_cash (b : Bank) (aid : String) (amount : ℚ) :
    (dictGet b.accounts aid = none → b.deposit_cash aid amount = (b, false)) ∧
    (∀ r acc, dictGet b.accounts aid = some r → dictGet b.heap r = some acc →
      acc.active = false → b.deposit_cash aid amount = (b, false)) ∧
    (∀ r acc, dictGet b.accounts aid = some r → dictGet b.heap r = some acc →
      acc.active = true → amount ≤ 0 → b.deposit_cash aid amount = (b, false)) ∧
    (∀ r acc, dictGet b.accounts aid = some r → dictGet b.heap r = some acc →
      acc.active = true → 0 < amount →
      b.deposit_cash aid amount =
        ({ b with
            current_timestamp := b.current_timestamp + 1
            heap := dictInsert b.heap r ((acc.deposit_amount amount).record_transaction
              { timestamp := b.current_timestamp + 1, counterparty := none,
                amount := amount, usage := "Bareinzahlung" })
            journal := b.journal ++
              [{ timestamp := b.current_timestamp + 1, from_account := none,
                 to_account := some acc.account_id, amount := amount,
                 usage := "Bareinzahlung" }] }, true)) := by
  refine ⟨fun h => by simp [Bank.deposit_cash, h], fun r acc h h' hact => ?_,
    fun r acc h h' hact hle => ?_, fun r acc h h' hact hpos => ?_⟩
  · simp [Bank.deposit_cash, h, h', hact]
  · simp [Bank.deposit_cash, h, h', hact, Bank.execute_transaction, hle]
  · have hnle : ¬ amount ≤ 0 := not_le.mpr hpos
    simp [Bank.deposit_cash, h, h', hact, Bank.execute_transaction, execDebit, execCredit,
      hnle, dictGet_dictInsert_self, Account.record_transaction, Account.deposit_amount]

/-- Witness for C7: on the freshly initialised bank, a cash deposit of 100
into the (active, zero-balance) fee account succeeds, credits it, and
appends the one expected journal transaction. -/
theorem c7_witness :
    Bank.init.deposit_cash "FEE-0001" 100 =
      ({ Bank.init with
          current_timestamp := Bank.init.current_timestamp + 1
          heap := dictInsert Bank.init.heap 0
            (((Account.new "FEE-0001" .noWithdrawal .noFee).deposit_amount 100).record_transaction
              { timestamp := Bank.init.current_timestamp + 1, counterparty := none,
                amount := 100, usage := "Bareinzahlung" })
          journal := Bank.init.journal ++
            [{ timestamp := Bank.init.current_timestamp + 1, from_account := none,
               to_account := some (Account.new "FEE-0001" .noWithdrawal .noFee).account_id,
               amount := 100, usage := "Bareinzahlung" }] }, true) :=
  (c7_deposit_cash Bank.init "FEE-0001" 100).2.2.2 0
    (Account.new "FEE-0001" .noWithdrawal .noFee)
    (by decide) (by simp [Bank.init, dictGet]) (by simp [Account.new]) (by norm_num)

/-- C8: `close_account` fails — leaving the active flag untouched — on an
unknown account, an inactive account, and an active account with non-zero
balance; on an active zero-balance account it succeeds, deactivates the
account, and a second `close_account` on the result fails. -/
theorem c8_close_account (b : Bank) (aid : String) :
    (dictGet b.accounts aid = none → b.close_account aid = (b, false)) ∧
    (∀ r acc, dictGet b.accounts aid = some r → dictGet b.heap r = some acc →
      acc.active = false → b.close_account aid = (b, false)) ∧
    (∀ r acc, dictGet b.accounts aid = some r → dictGet b.heap r = some acc →
      acc.active = true → acc.balance ≠ 0 → b.close_account aid = (b, false)) ∧
    (∀ r acc, dictGet b.accounts aid = some r → dictGet b.heap r = some acc →
      acc.active = true → acc.balance = 0 →
      b.close_account aid =
        ({ b with heap := dictInsert b.heap r { acc with active := false } }, true) ∧
      Bank.close_account
        { b with heap := dictInsert b.heap r { acc with active := false } } aid =
        ({ b with heap := dictInsert b.heap r { acc with active := false } }, false)) := by
  refine ⟨fun h => by simp [Bank.close_account, h], fun r acc h h' hact => ?_,
    fun r acc h h' hact hbal => ?_, fun r acc h h' hact hbal => ⟨?_, ?_⟩⟩
  · simp [Bank.close_account, h, h', hact]
  · simp [Bank.close_account, h, h', hact, hbal]
  · simp [Bank.close_account, h, h', hact, hbal, Account.close]
  · simp [Bank.close_account, h, dictGet_dictInsert_self]

/-- Fee account with cleared active flag, for the C8 witness. -/
def feeClosed : Account :=
  { Account.new "FEE-0001" .noWithdrawal .noFee with active := false }

/-- Initial bank after the fee account has been closed, for the C8 witness. -/
def c8Closed : Bank :=
  { Bank.init with heap := dictInsert Bank.init.heap 0 feeClosed }

/-- Witness for C8: closing the zero-balance active fee account on the
freshly initialised bank succeeds and deactivates it; closing it again
fails. -/
theorem c8_witness :
    Bank.init.close_account "FEE-0001" = (c8Closed, true) ∧
    c8Closed.close_account "FEE-0001" = (c8Closed, false) :=
  (c8_close_account Bank.init "FEE-0001").2.2.2 0
    (Account.new "FEE-0001" .noWithdrawal .noFee)
    (by decide) (by simp [Bank.init, dictGet]) (by simp [Account.new])
    (by simp [Account.new])

theorem sumAmounts_append (l : List TransactionEntry) (e : TransactionEntry) :
    sumAmounts (l ++ [e]) = sumAmounts l + e.amount := by
  simp [sumAmounts]

theorem accountBalanced_deposit_record (a : Account) (amt : ℚ) (ts : Nat)
    (cp : Option String) (u : String) (h : accountBalanced a) :
    accountBalanced ((a.deposit_amount amt).record_transaction
      { timestamp := ts, counterparty := cp, amount := amt, usage := u }) := by
  simp [accountBalanced, Account.deposit_amount, Account.record_transaction,
    sumAmounts_append] at h ⊢
  rw [h]

theorem accountBalanced_withdraw_record (a : Account) (amt : ℚ) (ts : Nat)
    (cp : Option String) (u : String) (h : accountBalanced a) :
    accountBalanced ((a.withdraw_amount amt).record_transaction
      { timestamp := ts, counterparty := cp, amount := -amt, usage := u }) := by
  simp [accountBalanced, Account.withdraw_amount, Account.record_transaction,
    sumAmounts_append] at h ⊢
  rw [h]
  ring

theorem heapBalanced_insert {h : List (Nat × Account)} {r : Nat} {a : Account}
    (hh : heapBalanced h) (ha : accountBalanced a) : heapBalanced (dictInsert h r a) := by
  intro r' a' hget
  by_cases hr : r' = r
  · subst hr
    rw [dictGet_dictInsert_self] at hget
    cases hget
    exact ha
  · rw [dictGet_dictInsert_ne _ _ hr] at hget
    exact hh _ _ hget

theorem accountBalanced_make (f : AccountFactory) (aid : String) :
    accountBalanced (f.make aid) := by
  cases f <;>
    simp [AccountFactory.make, Account.new, SavingsAccount.new, accountBalanced, sumAmounts]

theorem heapBalanced_execDebit {h : List (Nat × Account)} (f t : Option Nat)
    (amt : ℚ) (ts : Nat) (u : String) (hh : heapBalanced h) :
    heapBalanced (execDebit h f t amt ts u) := by
  rcases f with _ | fr
  · simpa [execDebit] using hh
  · rcases hfr : dictGet h fr with _ | facc
    · simpa [execDebit, hfr] using hh
    · simp only [execDebit, hfr]
      exact heapBalanced_insert hh
        (accountBalanced_withdraw_record facc amt ts _ u (hh _ _ hfr))

theorem heapBalanced_execCredit {h : List (Nat × Account)} (f t : Option Nat)
    (amt : ℚ) (ts : Nat) (u : String) (hh : heapBalanced h) :
    heapBalanced (execCredit h f t amt ts u) := by
  rcases t with _ | tr
  · simpa [execCredit] using hh
  · rcases htr : dictGet h tr with _ | tacc
    · simpa [execCredit, htr] using hh
    · simp only [execCredit, htr]
      exact heapBalanced_insert hh
        (accountBalanced_deposit_record tacc amt ts _ u (hh _ _ htr))

theorem allBalanced_execute_transaction (b : Bank) (f t : Option Nat) (amt : ℚ)
    (u : String) (b' : Bank) (hb : b.allBalanced)
    (h : b.execute_transaction f t amt u = .ok b') : b'.allBalanced := by
  rw [Bank.execute_transaction] at h
  by_cases hle : amt ≤ 0
  · rw [if_pos hle] at h
    cases h
  · rw [if_neg hle] at h
    cases h
    exact heapBalanced_execCredit f t amt _ u (heapBalanced_execDebit f t amt _ u hb)


theorem allBalanced_open_account (b : Bank) (t : String) (aid : Option String)
    (b' : Bank) (r : Nat) (hb : b.allBalanced)
    (h : b.open_account t aid = .ok (b', r)) : b'.allBalanced := by
  simp only [Bank.open_account] at h
  rcases hfac : dictGet b.account_factories (lower t) with _ | f <;> rw [hfac] at h
  · cases h
  · rcases aid with _ | aid0 <;>
      simp only [Bank.generate_account_id, Except.ok.injEq, Prod.mk.injEq] at h <;>
      obtain ⟨h1, -⟩ := h <;> subst h1 <;>
      exact heapBalanced_insert hb (accountBalanced_make f _)

theorem init_allBalanced : Bank.init.allBalanced := by
  intro r a h
  by_cases hr : r = 0
  · subst hr
    simp [Bank.init, dictGet] at h
    subst h
    simp [accountBalanced, Account.new, sumAmounts]
  · simp [Bank.init, dictGet, hr] at h

theorem allBalanced_step (b : Bank) (op : Op) (hop : ∀ r, op ≠ Op.apply_interest r)
    (hb : b.allBalanced) : (b.step op).allBalanced := by
  cases op with
  | open_account t aid =>
    simp only [Bank.step]
    rcases hoa : b.open_account t aid with e | p
    · exact hb
    · exact allBalanced_open_account b t aid p.1 p.2 hb hoa
  | deposit_cash aid amt =>
    simp only [Bank.step, Bank.deposit_cash]
    split
    · exact hb
    · split
      · exact hb
      · split
        · split
          · rename_i b1 he
            exact allBalanced_execute_transaction b _ _ _ _ _ hb he
          · exact hb
        · exact hb
  | transfer d c amt u =>
    simp only [Bank.step, Bank.transfer]
    split
    · split
      · split
        · split
          · split
            · rename_i b1 he1
              have hb1 := allBalanced_execute_transaction b _ _ _ _ _ hb he1
              split
              · split
                · rename_i b2 he2
                  exact allBalanced_execute_transaction b1 _ _ _ _ _ hb1 he2
                · exact hb1
              · exact hb1
            · exact hb
          · exact hb
        · exact hb
      · exact hb
    · exact hb
  | close_account aid =>
    simp only [Bank.step, Bank.close_account]
    split
    · exact hb
    next r h1 =>
      split
      · exact hb
      next acc h2 =>
        split
        · split
          · exact hb
          · refine heapBalanced_insert hb ?_
            have hacc := hb _ _ h2
            rw [Account.close]
            split
            · simpa [accountBalanced] using hacc
            · exact hacc
        · exact hb
  | apply_interest r => exact absurd rfl (hop r)
  | register_account_type n f => exact hb

/-- C1 (amended): after any sequence of public ledger operations that does
not include `apply_interest`, every account object satisfies the books
invariant: its balance equals the sum of its recorded entry amounts. -/
theorem c1_balance_invariant (ops : List Op)
    (h : ∀ op ∈ ops, ∀ r, op ≠ Op.apply_interest r) : (Bank.run ops).allBalanced :=
  foldl_step_invariant Bank.allBalanced ops Bank.init init_allBalanced
    (fun op hop b hb => allBalanced_step b op (h op hop) hb)

/-- Witness for C1: a one-operation interest-free sequence keeps all
accounts balanced. -/
theorem c1_witness : (Bank.run [.open_account "youth" (some "A")]).allBalanced :=
  c1_balance_invariant [.open_account "youth" (some "A")]
    (by intro op hop r; simp only [List.mem_singleton] at hop; subst hop; simp)

theorem lower_savings : lower "savings" = "savings" := by decide

theorem ne_savings_youth : "savings" ≠ "youth" := by decide

theorem ne_S_fee : "S" ≠ "FEE-0001" := by decide

/-- Bank state after opening the savings account "S", for the C1
counterexample. -/
def c1B1 : Bank :=
  { heap := [(0, Account.new "FEE-0001" .noWithdrawal .noFee),
             (1, SavingsAccount.new "S" (1 / 100))]
    next_ref := 2
    accounts := [("FEE-0001", 0), ("S", 1)]
    journal := []
    current_timestamp := 0
    account_id_counter := 1
    account_factories := [("youth", .youth), ("savings", .savings), ("private", .privateAccount)]
    fee_account := 0 }

/-- Account "S" after the cash deposit of 100, for the C1 counterexample. -/
def c1S : Account :=
  { account_id := "S", withdrawal_policy := .noOverdraft, fee_policy := .noFee
    balance := 100, active := true
    transactions := [{ timestamp := 1, counterparty := none, amount := 100,
                       usage := "Bareinzahlung" }]
    interest_rate := some (1 / 100) }

/-- Bank state after the cash deposit, for the C1 counterexample. -/
def c1B2 : Bank :=
  { c1B1 with
      heap := [(0, Account.new "FEE-0001" .noWithdrawal .noFee), (1, c1S)]
      journal := [{ timestamp := 1, from_account := none, to_account := some "S",
                    amount := 100, usage := "Bareinzahlung" }]
      current_timestamp := 1 }

/-- Bank state after `apply_interest` on "S": balance 101, but the history
still sums to 100. -/
def c1B3 : Bank :=
  { c1B2 with
      heap := [(0, Account.new "FEE-0001" .noWithdrawal .noFee),
               (1, { c1S with balance := 101 })] }

theorem c1_run_eval :
    Bank.run [.open_account "savings" (some "S"), .deposit_cash "S" 100,
      .apply_interest 1] = c1B3 := by
  have hrun : Bank.run [.open_account "savings" (some "S"), .deposit_cash "S" 100,
      .apply_interest 1] =
      Bank.step (Bank.step (Bank.step Bank.init (.open_account "savings" (some "S")))
        (.deposit_cash "S" 100)) (.apply_interest 1) := rfl
  have e1 : Bank.step Bank.init (.open_account "savings" (some "S")) = c1B1 := by
    norm_num [Bank.step, Bank.init, Bank.open_account, AccountFactory.make,
      SavingsAccount.new, Account.new, dictGet, dictInsert, lower_savings,
      ne_savings_youth, ne_S_fee, c1B1]
  have e2 : Bank.step c1B1 (.deposit_cash "S" 100) = c1B2 := by
    norm_num [Bank.step, Bank.deposit_cash, Bank.execute_transaction, execDebit,
      execCredit, Account.deposit_amount, Account.record_transaction,
      SavingsAccount.new, Account.new, dictGet, dictInsert, ne_S_fee, c1B1, c1B2, c1S]
  have e3 : Bank.step c1B2 (.apply_interest 1) = c1B3 := by
    norm_num [Bank.step, Account.apply_interest, Account.deposit_amount,
      dictGet, dictInsert, c1B2, c1B3, c1S]
  rw [hrun, e1, e2, e3]

/-- Counterexample to C1 as stated: after opening a savings account,
depositing 100 in cash and applying interest, the account's balance is 101
while its recorded entries sum to 100 — `apply_interest` credits interest
without recording an entry, so the invariant fails on that sequence. -/
theorem c1_counterexample :
    ¬ (Bank.run [.open_account "savings" (some "S"), .deposit_cash "S" 100,
        .apply_interest 1]).allBalanced := by
  rw [c1_run_eval]
  intro h
  have h1 := h 1 { c1S with balance := 101 } (by norm_num [c1B3, c1B2, c1B1, dictGet])
  rw [accountBalanced, sumAmounts, c1S] at h1
  norm_num at h1


/-- Timestamp side conditions of one account: its entry timestamps are
non-decreasing and bounded by the clock value `n`. -/
def accountTsBound (a : Account) (n : Nat) : Prop :=
  (a.transactions.map TransactionEntry.timestamp).Pairwise (· ≤ ·) ∧
  ∀ t ∈ a.transactions.map TransactionEntry.timestamp, t ≤ n

/-- Timestamp side conditions of every account of a heap. -/
def heapTsBound (h : List (Nat × Account)) (n : Nat) : Prop :=
  ∀ r a, dictGet h r = some a → accountTsBound a n

theorem accountTsBound_mono {a : Account} {n m : Nat} (ha : accountTsBound a n)
    (hnm : n ≤ m) : accountTsBound a m :=
  ⟨ha.1, fun t ht => le_trans (ha.2 t ht) hnm⟩

theorem heapTsBound_mono {h : List (Nat × Account)} {n m : Nat}
    (hh : heapTsBound h n) (hnm : n ≤ m) : heapTsBound h m :=
  fun r a hget => accountTsBound_mono (hh r a hget) hnm

theorem heapTsBound_insert {h : List (Nat × Account)} {n : Nat} {r : Nat} {a : Account}
    (hh : heapTsBound h n) (ha : accountTsBound a n) : heapTsBound (dictInsert h r a) n := by
  intro r' a' hget
  by_cases hr : r' = r
  · subst hr
    rw [dictGet_dictInsert_self] at hget
    cases hget
    exact ha
  · rw [dictGet_dictInsert_ne _ _ hr] at hget
    exact hh _ _ hget

theorem accountTsBound_record {a : Account} {n : Nat} (e : TransactionEntry)
    (ha : accountTsBound a n) (he : e.timestamp = n) :
    accountTsBound (a.record_transaction e) n := by
  obtain ⟨hp, hb⟩ := ha
  constructor
  · simp only [Account.record_transaction, List.map_append, List.map_cons, List.map_nil]
    rw [List.pairwise_append]
    refine ⟨hp, by simp, ?_⟩
    intro x hx y hy
    simp only [List.mem_singleton] at hy
    subst hy
    rw [he]
    exact hb x hx
  · intro t ht
    simp only [Account.record_transaction, List.map_append, List.map_cons, List.map_nil,
      List.mem_append, List.mem_singleton] at ht
    rcases ht with ht | ht
    · exact hb t ht
    · subst ht
      rw [he]

theorem heapTsBound_execDebit {h : List (Nat × Account)} {n : Nat} (f t : Option Nat)
    (amt : ℚ) (u : String) (hh : heapTsBound h n) :
    heapTsBound (execDebit h f t amt n u) n := by
  rcases f with _ | fr
  · exact hh
  · rcases hfr : dictGet h fr with _ | facc
    · simp only [execDebit, hfr]
      exact hh
    · simp only [execDebit, hfr]
      exact heapTsBound_insert hh
        (accountTsBound_record _ (hh fr facc hfr) rfl)

theorem heapTsBound_execCredit {h : List (Nat × Account)} {n : Nat} (f t : Option Nat)
    (amt : ℚ) (u : String) (hh : heapTsBound h n) :
    heapTsBound (execCredit h f t amt n u) n := by
  rcases t with _ | tr
  · exact hh
  · rcases htr : dictGet h tr with _ | tacc
    · simp only [execCredit, htr]
      exact hh
    · simp only [execCredit, htr]
      exact heapTsBound_insert hh
        (accountTsBound_record _ (hh tr tacc htr) rfl)

/-- Timestamp invariant of a bank state: journal timestamps strictly
increase, are bounded by the clock, the clock counts the executed
transactions, and every account's entries are clock-bounded and
non-decreasing. -/
def tsInvariant (b : Bank) : Prop :=
  (b.journal.map Transaction.timestamp).Pairwise (· < ·) ∧
  (∀ t ∈ b.journal.map Transaction.timestamp, t ≤ b.current_timestamp) ∧
  b.current_timestamp = b.journal.length ∧
  heapTsBound b.heap b.current_timestamp

theorem init_tsInvariant : tsInvariant Bank.init := by
  refine ⟨by simp [Bank.init], by simp [Bank.init], rfl, ?_⟩
  intro r a h
  by_cases hr : r = 0
  · subst hr
    simp [Bank.init, dictGet] at h
    subst h
    simp [accountTsBound, Account.new]
  · simp [Bank.init, dictGet, hr] at h

theorem tsInvariant_execute (b : Bank) (f t : Option Nat) (amt : ℚ) (u : String)
    (b' : Bank) (hb : tsInvariant b)
    (h : b.execute_transaction f t amt u = .ok b') : tsInvariant b' := by
  obtain ⟨hj, hjb, hlen, hh⟩ := hb
  rw [Bank.execute_transaction] at h
  by_cases hle : amt ≤ 0
  · rw [if_pos hle] at h
    cases h
  · rw [if_neg hle] at h
    cases h
    refine ⟨?_, ?_, ?_, ?_⟩
    · simp only [List.map_append, List.map_cons, List.map_nil]
      rw [List.pairwise_append]
      refine ⟨hj, by simp, ?_⟩
      intro x hx y hy
      simp only [List.mem_singleton] at hy
      subst hy
      exact Nat.lt_succ_of_le (hjb x hx)
    · intro ts hts
      simp only [List.map_append, List.map_cons, List.map_nil, List.mem_append,
        List.mem_singleton] at hts
      rcases hts with hts | hts
      · exact le_trans (hjb ts hts) (Nat.le_succ _)
      · subst hts
        exact le_refl _
    · simp [hlen]
    · exact heapTsBound_execCredit f t amt u
        (heapTsBound_execDebit f t amt u (heapTsBound_mono hh (Nat.le_succ _)))

theorem accountTsBound_make (f : AccountFactory) (aid : String) (n : Nat) :
    accountTsBound (f.make aid) n := by
  cases f <;>
    simp [AccountFactory.make, Account.new, SavingsAccount.new, accountTsBound]

theorem tsInvariant_open_account (b : Bank) (t : String) (aid : Option String)
    (b' : Bank) (r : Nat) (hb : tsInvariant b)
    (h : b.open_account t aid = .ok (b', r)) : tsInvariant b' := by
  simp only [Bank.open_account] at h
  rcases hfac : dictGet b.account_factories (lower t) with _ | f <;> rw [hfac] at h
  · cases h
  · obtain ⟨hj, hjb, hlen, hh⟩ := hb
    rcases aid with _ | aid0 <;>
      simp only [Bank.generate_account_id, Except.ok.injEq, Prod.mk.injEq] at h <;>
      obtain ⟨h1, -⟩ := h <;> subst h1 <;>
      exact ⟨hj, hjb, hlen, heapTsBound_insert hh (accountTsBound_make f _ _)⟩

theorem apply_interest_transactions (a : Account) :
    a.apply_interest.transactions = a.transactions := by
  rcases hr : a.interest_rate with _ | rate <;>
    simp [Account.apply_interest, hr, Account.deposit_amount]

theorem tsInvariant_step (b : Bank) (op : Op) (hb : tsInvariant b) :
    tsInvariant (b.step op) := by
  cases op with
  | open_account t aid =>
    simp only [Bank.step]
    rcases hoa : b.open_account t aid with e | p
    · exact hb
    · exact tsInvariant_open_account b t aid p.1 p.2 hb hoa
  | deposit_cash aid amt =>
    simp only [Bank.step, Bank.deposit_cash]
    split
    · exact hb
    · split
      · exact hb
      · split
        · split
          · rename_i b1 he
            exact tsInvariant_execute b _ _ _ _ _ hb he
          · exact hb
        · exact hb
  | transfer d c amt u =>
    simp only [Bank.step, Bank.transfer]
    split
    · split
      · split
        · split
          · split
            · rename_i b1 he1
              have hb1 := tsInvariant_execute b _ _ _ _ _ hb he1
              split
              · split
                · rename_i b2 he2
                  exact tsInvariant_execute b1 _ _ _ _ _ hb1 he2
                · exact hb1
              · exact hb1
            · exact hb
          · exact hb
        · exact hb
      · exact hb
    · exact hb
  | close_account aid =>
    simp only [Bank.step, Bank.close_account]
    split
    · exact hb
    next r h1 =>
      split
      · exact hb
      next acc h2 =>
        split
        · split
          · exact hb
          · obtain ⟨hj, hjb, hlen, hh⟩ := hb
            refine ⟨hj, hjb, hlen, heapTsBound_insert hh ?_⟩
            have hacc := hh _ _ h2
            rw [Account.close]
            split
            · exact hacc
            · exact hacc
        · exact hb
  | apply_interest r =>
    simp only [Bank.step]
    split
    · exact hb
    next a heq =>
      obtain ⟨hj, hjb, hlen, hh⟩ := hb
      refine ⟨hj, hjb, hlen, heapTsBound_insert hh ?_⟩
      have := hh _ _ heq
      simpa [accountTsBound, apply_interest_transactions] using this
  | register_account_type n f => exact hb

/-- C2 (amended): the logical clock starts at 0; the journal's timestamps
are strictly increasing (hence never repeat) across any operation sequence;
the clock always equals the number of executed transactions (it is
incremented exactly once per transaction); and each account's entry
timestamps are non-decreasing — the entries recorded by a single
transaction (for example the two sides of a self-transfer) share that
transaction's timestamp, so they need not strictly increase. -/
theorem c2_timestamps (ops : List Op) :
    Bank.init.current_timestamp = 0 ∧
    ((Bank.run ops).journal.map Transaction.timestamp).Pairwise (· < ·) ∧
    (Bank.run ops).current_timestamp = (Bank.run ops).journal.length ∧
    ∀ aid es, (Bank.run ops).get_account_transactions aid none = some es →
      (es.map TransactionEntry.timestamp).Pairwise (· ≤ ·) := by
  obtain ⟨hj, hjb, hlen, hh⟩ :=
    run_invariant tsInvariant init_tsInvariant (fun b op hb => tsInvariant_step b op hb) ops
  refine ⟨rfl, hj, hlen, ?_⟩
  intro aid es h
  rw [Bank.get_account_transactions] at h
  rcases h1 : dictGet (Bank.run ops).accounts aid with _ | r <;> rw [h1] at h
  · simp at h
  rcases h2 : dictGet (Bank.run ops).heap r with _ | a
  · simp [h2] at h
  · simp [h2, Account.get_transactions] at h
    subst h
    exact (hh _ _ h2).1


theorem lower_youth : lower "youth" = "youth" := by decide

theorem ne_A_fee : "A" ≠ "FEE-0001" := by decide

/-- Bank state after opening the youth account "A", for the C2
counterexample. -/
def c2B1 : Bank :=
  { heap := [(0, Account.new "FEE-0001" .noWithdrawal .noFee),
             (1, Account.new "A" .noOverdraft .noFee)]
    next_ref := 2
    accounts := [("FEE-0001", 0), ("A", 1)]
    journal := []
    current_timestamp := 0
    account_id_counter := 1
    account_factories := [("youth", .youth), ("savings", .savings), ("private", .privateAccount)]
    fee_account := 0 }

/-- Account "A" after the cash deposit of 100, for the C2 counterexample. -/
def c2A2 : Account :=
  { account_id := "A", withdrawal_policy := .noOverdraft, fee_policy := .noFee
    balance := 100, active := true
    transactions := [{ timestamp := 1, counterparty := none, amount := 100,
                       usage := "Bareinzahlung" }]
    interest_rate := none }

/-- Bank state after the cash deposit, for the C2 counterexample. -/
def c2B2 : Bank :=
  { c2B1 with
      heap := [(0, Account.new "FEE-0001" .noWithdrawal .noFee), (1, c2A2)]
      journal := [{ timestamp := 1, from_account := none, to_account := some "A",
                    amount := 100, usage := "Bareinzahlung" }]
      current_timestamp := 1 }

/-- Account "A" after the self-transfer: both sides of transaction 2 are
recorded on it with the same timestamp. -/
def c2A3 : Account :=
  { c2A2 with
      transactions := [{ timestamp := 1, counterparty := none, amount := 100,
                         usage := "Bareinzahlung" },
                       { timestamp := 2, counterparty := some "A", amount := -50,
                         usage := "" },
                       { timestamp := 2, counterparty := some "A", amount := 50,
                         usage := "" }] }

/-- Bank state after the self-transfer, for the C2 counterexample. -/
def c2B3 : Bank :=
  { c2B2 with
      heap := [(0, Account.new "FEE-0001" .noWithdrawal .noFee), (1, c2A3)]
      journal := [{ timestamp := 1, from_account := none, to_account := some "A",
                    amount := 100, usage := "Bareinzahlung" },
                  { timestamp := 2, from_account := some "A", to_account := some "A",
                    amount := 50, usage := "" }]
      current_timestamp := 2 }

theorem c2_run_eval :
    Bank.run [.open_account "youth" (some "A"), .deposit_cash "A" 100,
      .transfer "A" "A" 50 ""] = c2B3 := by
  have hrun : Bank.run [.open_account "youth" (some "A"), .deposit_cash "A" 100,
      .transfer "A" "A" 50 ""] =
      Bank.step (Bank.step (Bank.step Bank.init (.open_account "youth" (some "A")))
        (.deposit_cash "A" 100)) (.transfer "A" "A" 50 "") := rfl
  have e1 : Bank.step Bank.init (.open_account "youth" (some "A")) = c2B1 := by
    norm_num [Bank.step, Bank.init, Bank.open_account, AccountFactory.make,
      Account.new, dictGet, dictInsert, lower_youth, ne_A_fee, c2B1]
  have e2 : Bank.step c2B1 (.deposit_cash "A" 100) = c2B2 := by
    norm_num [Bank.step, Bank.deposit_cash, Bank.execute_transaction, execDebit,
      execCredit, Account.deposit_amount, Account.record_transaction, Account.new,
      dictGet, dictInsert, ne_A_fee, c2B1, c2B2, c2A2]
  have e3 : Bank.step c2B2 (.transfer "A" "A" 50 "") = c2B3 := by
    norm_num [Bank.step, Bank.transfer, Bank.execute_transaction, execDebit, execCredit,
      Account.deposit_amount, Account.withdraw_amount, Account.record_transaction,
      Account.can_withdraw, Account.calculate_fee, WithdrawalPolicy.can_withdraw,
      FeePolicy.calculate_fee, dictGet, dictInsert, ne_A_fee, c2B2, c2B3, c2A2, c2A3]
  rw [hrun, e1, e2, e3]

/-- Counterexample to C2 as stated: after a self-transfer, account "A"
carries entry timestamps [1, 2, 2] — the two entries of one transaction
repeat a timestamp, so the recorded timestamps are neither strictly
increasing nor free of repeats. -/
theorem c2_counterexample :
    ((Bank.run [.open_account "youth" (some "A"), .deposit_cash "A" 100,
        .transfer "A" "A" 50 ""]).get_account_transactions "A" none).map
        (fun es => es.map TransactionEntry.timestamp) = some [1, 2, 2] ∧
    ¬ ([1, 2, 2] : List Nat).Pairwise (· < ·) ∧
    ¬ ([1, 2, 2] : List Nat).Pairwise (· ≠ ·) := by
  refine ⟨?_, by decide, by decide⟩
  rw [c2_run_eval]
  norm_num [c2B3, c2B2, c2B1, Bank.get_account_transactions, Account.get_transactions,
    dictGet, c2A3, c2A2, ne_A_fee]

/-- Witness for C2 on the one-deposit sequence: the clock starts at 0, the
journal timestamps strictly increase, the clock counts the transactions,
and the deposited account entry list has non-decreasing timestamps. -/
theorem c2_witness :
    Bank.init.current_timestamp = 0 ∧
    ((Bank.run [.deposit_cash "FEE-0001" 5]).journal.map Transaction.timestamp).Pairwise
      (· < ·) ∧
    (Bank.run [.deposit_cash "FEE-0001" 5]).current_timestamp =
      (Bank.run [.deposit_cash "FEE-0001" 5]).journal.length ∧
    (([{ timestamp := 1, counterparty := none, amount := 5, usage := "Bareinzahlung" }] :
        List TransactionEntry).map TransactionEntry.timestamp).Pairwise (· ≤ ·) := by
  obtain ⟨a1, a2, a3, a4⟩ := c2_timestamps [.deposit_cash "FEE-0001" 5]
  refine ⟨a1, a2, a3, a4 "FEE-0001" _ ?_⟩
  norm_num [Bank.run, List.foldl, Bank.step, Bank.deposit_cash, Bank.execute_transaction,
    execDebit, execCredit, Bank.init, dictGet, dictInsert, Account.new,
    Account.deposit_amount, Account.record_transaction, Bank.get_account_transactions,
    Account.get_transactions]


/-- Fee-object conditions of a heap: reference 0 holds an account whose
withdrawal policy is `NoWithdrawalPolicy` and which is no savings account. -/
def feeObjOk (h : List (Nat × Account)) : Prop :=
  ∃ a, dictGet h 0 = some a ∧ a.withdrawal_policy = .noWithdrawal ∧
    a.interest_rate = none

/-- Invariant tying `_fee_account` to heap reference 0. -/
def feeInvariant (b : Bank) : Prop :=
  b.fee_account = 0 ∧ 1 ≤ b.next_ref ∧ feeObjOk b.heap

theorem feeObjOk_insert_same {h : List (Nat × Account)} {r : Nat} {acc a' : Account}
    (hh : feeObjOk h) (hget : dictGet h r = some acc)
    (hpol : a'.withdrawal_policy = acc.withdrawal_policy)
    (hrate : a'.interest_rate = acc.interest_rate) : feeObjOk (dictInsert h r a') := by
  obtain ⟨a0, hget0, hpol0, hrate0⟩ := hh
  by_cases hr : (0 : Nat) = r
  · subst hr
    rw [hget0] at hget
    cases hget
    exact ⟨a', dictGet_dictInsert_self _ _ _, by rw [hpol]; exact hpol0,
      by rw [hrate]; exact hrate0⟩
  · exact ⟨a0, by rw [dictGet_dictInsert_ne _ _ hr]; exact hget0, hpol0, hrate0⟩

theorem feeObjOk_insert_ne {h : List (Nat × Account)} {r : Nat} {a' : Account}
    (hh : feeObjOk h) (hr : (0 : Nat) ≠ r) : feeObjOk (dictInsert h r a') := by
  obtain ⟨a0, hget0, hpol0, hrate0⟩ := hh
  exact ⟨a0, by rw [dictGet_dictInsert_ne _ _ hr]; exact hget0, hpol0, hrate0⟩

theorem feeObjOk_execDebit {h : List (Nat × Account)} (f t : Option Nat) (amt : ℚ)
    (ts : Nat) (u : String) (hh : feeObjOk h) : feeObjOk (execDebit h f t amt ts u) := by
  rcases f with _ | fr
  · exact hh
  rcases hfr : dictGet h fr with _ | facc
  · simp only [execDebit, hfr]
    exact hh
  · simp only [execDebit, hfr]
    exact feeObjOk_insert_same hh hfr rfl rfl

theorem feeObjOk_execCredit {h : List (Nat × Account)} (f t : Option Nat) (amt : ℚ)
    (ts : Nat) (u : String) (hh : feeObjOk h) : feeObjOk (execCredit h f t amt ts u) := by
  rcases t with _ | tr
  · exact hh
  rcases htr : dictGet h tr with _ | tacc
  · simp only [execCredit, htr]
    exact hh
  · simp only [execCredit, htr]
    exact feeObjOk_insert_same hh htr rfl rfl

theorem execute_transaction_ok (b : Bank) (f t : Option Nat) (amt : ℚ) (u : String)
    (b' : Bank) (h : b.execute_transaction f t amt u = .ok b') :
    ¬ amt ≤ 0 ∧
    b'.heap = execCredit (execDebit b.heap f t amt (b.current_timestamp + 1) u) f t amt
      (b.current_timestamp + 1) u ∧
    b'.fee_account = b.fee_account ∧ b'.next_ref = b.next_ref := by
  rw [Bank.execute_transaction] at h
  by_cases hle : amt ≤ 0
  · rw [if_pos hle] at h
    cases h
  · rw [if_neg hle] at h
    cases h
    exact ⟨hle, rfl, rfl, rfl⟩

theorem feeInvariant_execute (b : Bank) (f t : Option Nat) (amt : ℚ) (u : String)
    (b' : Bank) (hb : feeInvariant b)
    (h : b.execute_transaction f t amt u = .ok b') : feeInvariant b' := by
  obtain ⟨-, hheap, hfee, hnr⟩ := execute_transaction_ok b f t amt u b' h
  exact ⟨by rw [hfee]; exact hb.1, by rw [hnr]; exact hb.2.1,
    by rw [hheap]; exact feeObjOk_execCredit _ _ _ _ _ (feeObjOk_execDebit _ _ _ _ _ hb.2.2)⟩

theorem close_withdrawal_policy (acc : Account) :
    (acc.close).1.withdrawal_policy = acc.withdrawal_policy := by
  rw [Account.close]
  split <;> rfl

theorem close_interest_rate (acc : Account) :
    (acc.close).1.interest_rate = acc.interest_rate := by
  rw [Account.close]
  split <;> rfl

theorem apply_interest_policy (a : Account) :
    a.apply_interest.withdrawal_policy = a.withdrawal_policy := by
  rcases hr : a.interest_rate with _ | rate <;>
    simp [Account.apply_interest, hr, Account.deposit_amount]

theorem apply_interest_rate (a : Account) :
    a.apply_interest.interest_rate = a.interest_rate := by
  rcases hr : a.interest_rate with _ | rate <;>
    simp [Account.apply_interest, hr, Account.deposit_amount]

theorem feeInvariant_open_account (b : Bank) (t : String) (aid : Option String)
    (b' : Bank) (r : Nat) (hb : feeInvariant b)
    (h : b.open_account t aid = .ok (b', r)) : feeInvariant b' := by
  simp only [Bank.open_account] at h
  rcases hfac : dictGet b.account_factories (lower t) with _ | f <;> rw [hfac] at h
  · cases h
  · obtain ⟨hfee, hnr, hobj⟩ := hb
    have hne : (0 : Nat) ≠ b.next_ref := (Nat.lt_of_lt_of_le Nat.zero_lt_one hnr).ne
    rcases aid with _ | aid0 <;>
      simp only [Bank.generate_account_id, Except.ok.injEq, Prod.mk.injEq] at h <;>
      obtain ⟨h1, -⟩ := h <;> subst h1 <;>
      exact ⟨hfee, le_trans hnr (Nat.le_succ _), feeObjOk_insert_ne hobj hne⟩

theorem init_feeInvariant : feeInvariant Bank.init :=
  ⟨rfl, le_refl 1, ⟨Account.new "FEE-0001" .noWithdrawal .noFee, rfl, rfl, rfl⟩⟩

theorem feeInvariant_step (b : Bank) (op : Op) (hb : feeInvariant b) :
    feeInvariant (b.step op) := by
  cases op with
  | open_account t aid =>
    simp only [Bank.step]
    rcases hoa : b.open_account t aid with e | p
    · exact hb
    · exact feeInvariant_open_account b t aid p.1 p.2 hb hoa
  | deposit_cash aid amt =>
    simp only [Bank.step, Bank.deposit_cash]
    split
    · exact hb
    · split
      · exact hb
      · split
        · split
          · rename_i b1 he
            exact feeInvariant_execute b _ _ _ _ _ hb he
          · exact hb
        · exact hb
  | transfer d c amt u =>
    simp only [Bank.step, Bank.transfer]
    split
    · split
      · split
        · split
          · split
            · rename_i b1 he1
              have hb1 := feeInvariant_execute b _ _ _ _ _ hb he1
              split
              · split
                · rename_i b2 he2
                  exact feeInvariant_execute b1 _ _ _ _ _ hb1 he2
                · exact hb1
              · exact hb1
            · exact hb
          · exact hb
        · exact hb
      · exact hb
    · exact hb
  | close_account aid =>
    simp only [Bank.step, Bank.close_account]
    split
    · exact hb
    next r h1 =>
      split
      · exact hb
      next acc h2 =>
        split
        · split
          · exact hb
          · exact ⟨hb.1, hb.2.1, feeObjOk_insert_same hb.2.2 h2
              (close_withdrawal_policy acc) (close_interest_rate acc)⟩
        · exact hb
  | apply_interest r =>
    simp only [Bank.step]
    split
    · exact hb
    next a heq =>
      exact ⟨hb.1, hb.2.1, feeObjOk_insert_same hb.2.2 heq
        (apply_interest_policy a) (apply_interest_rate a)⟩
  | register_account_type n f => exact hb

theorem run_feeInvariant (ops : List Op) : feeInvariant (Bank.run ops) :=
  run_invariant feeInvariant init_feeInvariant (fun b op hb => feeInvariant_step b op hb)
    ops

/-- Balance of the object at heap reference 0. -/
def heapFeeBal (h : List (Nat × Account)) : ℚ :=
  ((dictGet h 0).map Account.balance).getD 0

theorem feeBalance_eq {b : Bank} (hfee : b.fee_account = 0) :
    b.feeBalance = heapFeeBal b.heap := by
  rw [Bank.feeBalance, hfee, heapFeeBal]

theorem heapFeeBal_insert_ne {h : List (Nat × Account)} {r : Nat} {a' : Account}
    (hr : (0 : Nat) ≠ r) : heapFeeBal (dictInsert h r a') = heapFeeBal h := by
  rw [heapFeeBal, heapFeeBal, dictGet_dictInsert_ne _ _ hr]

theorem heapFeeBal_insert_same_le {h : List (Nat × Account)} {r : Nat}
    {acc a' : Account} (hget : dictGet h r = some acc)
    (hbal : acc.balance ≤ a'.balance) :
    heapFeeBal h ≤ heapFeeBal (dictInsert h r a') := by
  by_cases hr : (0 : Nat) = r
  · subst hr
    rw [heapFeeBal, heapFeeBal, hget, dictGet_dictInsert_self]
    simpa using hbal
  · rw [heapFeeBal_insert_ne hr]

theorem heapFeeBal_execDebit_eq {h : List (Nat × Account)} {f : Option Nat}
    (t : Option Nat) (amt : ℚ) (ts : Nat) (u : String)
    (hf : ∀ fr, f = some fr → fr ≠ 0) :
    heapFeeBal (execDebit h f t amt ts u) = heapFeeBal h := by
  rcases f with _ | fr
  · rfl
  rcases hfr : dictGet h fr with _ | facc
  · simp only [execDebit, hfr]
  · simp only [execDebit, hfr]
    exact heapFeeBal_insert_ne fun h0 => hf fr rfl h0.symm

theorem heapFeeBal_execCredit_le {h : List (Nat × Account)} (f t : Option Nat)
    {amt : ℚ} (ts : Nat) (u : String) (hamt : 0 ≤ amt) :
    heapFeeBal h ≤ heapFeeBal (execCredit h f t amt ts u) := by
  rcases t with _ | tr
  · exact le_refl _
  rcases htr : dictGet h tr with _ | tacc
  · simp only [execCredit, htr]
    exact le_refl _
  · simp only [execCredit, htr]
    exact heapFeeBal_insert_same_le htr (le_add_of_nonneg_right hamt)


theorem close_balance (acc : Account) : (acc.close).1.balance = acc.balance := by
  rw [Account.close]
  split <;> rfl

theorem feeBalance_step (b : Bank) (op : Op) (hb : feeInvariant b) :
    b.feeBalance ≤ (b.step op).feeBalance := by
  have hb' := feeInvariant_step b op hb
  rw [feeBalance_eq hb.1, feeBalance_eq hb'.1]
  cases op with
  | open_account t aid =>
    simp only [Bank.step]
    rcases hoa : b.open_account t aid with e | p
    · exact le_refl _
    · obtain ⟨hfee, hnr, hobj⟩ := hb
      have hne : (0 : Nat) ≠ b.next_ref := (Nat.lt_of_lt_of_le Nat.zero_lt_one hnr).ne
      simp only [Bank.open_account] at hoa
      rcases hfac : dictGet b.account_factories (lower t) with _ | f <;> rw [hfac] at hoa
      · cases hoa
      · rcases aid with _ | aid0 <;>
          simp only [Bank.generate_account_id, Except.ok.injEq] at hoa <;>
          rw [← hoa] <;>
          exact (heapFeeBal_insert_ne hne).ge
  | deposit_cash aid amt =>
    simp only [Bank.step, Bank.deposit_cash]
    split
    · exact le_refl _
    · split
      · exact le_refl _
      · split
        · split
          · rename_i b1 he
            obtain ⟨hpos, hheap, -, -⟩ := execute_transaction_ok b _ _ _ _ _ he
            rw [hheap]
            exact heapFeeBal_execCredit_le _ _ _ _ (le_of_lt (not_le.mp hpos))
          · exact le_refl _
        · exact le_refl _
  | transfer d c amt u =>
    simp only [Bank.step, Bank.transfer]
    split
    · rename_i dr cr hdr hcr
      split
      · rename_i debit credit hdebit hcredit
        split
        · split
          · rename_i hact hcw
            split
            · rename_i b1 he1
              obtain ⟨hfee, hnr, a0, hget0, hpol0, hrate0⟩ := hb
              have hdr0 : dr ≠ 0 := by
                intro h0
                subst h0
                rw [hget0] at hdebit
                cases hdebit
                rw [Account.can_withdraw, hpol0] at hcw
                simp [WithdrawalPolicy.can_withdraw] at hcw
              have hf : ∀ fr, (some dr : Option Nat) = some fr → fr ≠ 0 := by
                intro fr hfr
                cases hfr
                exact hdr0
              obtain ⟨hpos1, hheap1, -, -⟩ := execute_transaction_ok b _ _ _ _ _ he1
              have s1 : heapFeeBal b.heap ≤ heapFeeBal b1.heap := by
                rw [hheap1]
                exact le_trans (le_of_eq (heapFeeBal_execDebit_eq _ _ _ _ hf).symm)
                  (heapFeeBal_execCredit_le _ _ _ _ (le_of_lt (not_le.mp hpos1)))
              split
              · split
                · rename_i b2 he2
                  obtain ⟨hpos2, hheap2, -, -⟩ := execute_transaction_ok b1 _ _ _ _ _ he2
                  have s2 : heapFeeBal b1.heap ≤ heapFeeBal b2.heap := by
                    rw [hheap2]
                    exact le_trans (le_of_eq (heapFeeBal_execDebit_eq _ _ _ _ hf).symm)
                      (heapFeeBal_execCredit_le _ _ _ _ (le_of_lt (not_le.mp hpos2)))
                  exact le_trans s1 s2
                · exact s1
              · exact s1
            · exact le_refl _
          · exact le_refl _
        · exact le_refl _
      · exact le_refl _
    · exact le_refl _
  | close_account aid =>
    simp only [Bank.step, Bank.close_account]
    split
    · exact le_refl _
    next r h1 =>
      split
      · exact le_refl _
      next acc h2 =>
        split
        · split
          · exact le_refl _
          · exact heapFeeBal_insert_same_le h2 (close_balance acc).ge
        · exact le_refl _
  | apply_interest r =>
    simp only [Bank.step]
    split
    · exact le_refl _
    next a heq =>
      obtain ⟨hfee, hnr, a0, hget0, hpol0, hrate0⟩ := hb
      by_cases hr : (0 : Nat) = r
      · subst hr
        rw [hget0] at heq
        cases heq
        have hai : a.apply_interest = a := by
          simp [Account.apply_interest, hrate0]
        rw [hai]
        exact heapFeeBal_insert_same_le hget0 (le_refl _)
      · exact (heapFeeBal_insert_ne hr).ge
  | register_account_type n f => exact le_refl _

theorem feeBalance_foldl : ∀ (extra : List Op) (b : Bank), feeInvariant b →
    b.feeBalance ≤ (extra.foldl Bank.step b).feeBalance
  | [], _, _ => le_refl _
  | op :: rest, b, hb =>
    le_trans (feeBalance_step b op hb)
      (feeBalance_foldl rest (b.step op) (feeInvariant_step b op hb))

theorem transfer_noWithdrawal (b : Bank) (d c u : String) (amount : ℚ) (dr : Nat)
    (debit : Account) (h1 : dictGet b.accounts d = some dr)
    (h2 : dictGet b.heap dr = some debit)
    (hp : debit.withdrawal_policy = .noWithdrawal) :
    b.transfer d c amount u = (b, false) := by
  have hcw : debit.can_withdraw (amount + debit.calculate_fee amount) = false := by
    rw [Account.can_withdraw, hp]
    rfl
  rcases h3 : dictGet b.accounts c with _ | cr
  · simp [Bank.transfer, h1, h3]
  rcases h4 : dictGet b.heap cr with _ | credit
  · simp [Bank.transfer, h1, h2, h3, h4]
  by_cases hact : debit.active && credit.active = true <;>
    simp [Bank.transfer, h1, h2, h3, h4, hcw, hact]

/-- C5 (amended): the balance of the distinguished fee-collection object
(the one `_fee_account` points at) never decreases under any further
sequence of public operations, and — as long as the registry still maps
"FEE-0001" to that object, i.e. before any `open_account` call replaces
the entry — every transfer debiting "FEE-0001" returns failure and mutates
nothing.  Once the entry is replaced, the as-stated claim fails (see the
counterexample). -/
theorem c5_fee_account (ops extra : List Op) (c u : String) (amount : ℚ) :
    (Bank.run ops).feeBalance ≤ (Bank.run (ops ++ extra)).feeBalance ∧
    (dictGet (Bank.run ops).accounts "FEE-0001" = some (Bank.run ops).fee_account →
      (Bank.run ops).transfer "FEE-0001" c amount u = (Bank.run ops, false)) := by
  constructor
  · rw [run_append]
    exact feeBalance_foldl extra (Bank.run ops) (run_feeInvariant ops)
  · intro hreg
    obtain ⟨hfee, hnr, a0, hget0, hpol0, hrate0⟩ := run_feeInvariant ops
    rw [hfee] at hreg
    exact transfer_noWithdrawal _ _ _ _ _ _ _ hreg hget0 hpol0

/-- Witness for C5: on the fresh bank the fee balance does not decrease
under a further deposit, and a transfer debiting "FEE-0001" fails without
mutation. -/
theorem c5_witness :
    (Bank.run []).feeBalance ≤ (Bank.run ([] ++ [.deposit_cash "FEE-0001" 5])).feeBalance ∧
    (Bank.run []).transfer "FEE-0001" "X" 7 "" = (Bank.run [], false) :=
  ⟨(c5_fee_account [] [.deposit_cash "FEE-0001" 5] "X" "" 7).1,
   (c5_fee_account [] [.deposit_cash "FEE-0001" 5] "X" "" 7).2 (by decide)⟩


theorem lower_private : lower "private" = "private" := by decide

theorem ne_private_youth : "private" ≠ "youth" := by decide

theorem ne_private_savings : "private" ≠ "savings" := by decide

theorem ne_X_fee : "X" ≠ "FEE-0001" := by decide

/-- Bank state after opening the youth account "X", for the C5
counterexample. -/
def c5D1 : Bank :=
  { heap := [(0, Account.new "FEE-0001" .noWithdrawal .noFee),
             (1, Account.new "X" .noOverdraft .noFee)]
    next_ref := 2
    accounts := [("FEE-0001", 0), ("X", 1)]
    journal := []
    current_timestamp := 0
    account_id_counter := 1
    account_factories := [("youth", .youth), ("savings", .savings), ("private", .privateAccount)]
    fee_account := 0 }

/-- Bank state after `open_account("private", "FEE-0001")` replaced the
fee account's registry entry with a fresh private account at reference 2. -/
def c5D2 : Bank :=
  { c5D1 with
      heap := [(0, Account.new "FEE-0001" .noWithdrawal .noFee),
               (1, Account.new "X" .noOverdraft .noFee),
               (2, Account.new "FEE-0001" (.overdraft 500) (.percentageFee (1 / 100)))]
      next_ref := 3
      accounts := [("FEE-0001", 2), ("X", 1)] }

theorem c5_run_eval :
    Bank.run [.open_account "youth" (some "X"),
      .open_account "private" (some "FEE-0001")] = c5D2 := by
  have hrun : Bank.run [.open_account "youth" (some "X"),
      .open_account "private" (some "FEE-0001")] =
      Bank.step (Bank.step Bank.init (.open_account "youth" (some "X")))
        (.open_account "private" (some "FEE-0001")) := rfl
  have e1 : Bank.step Bank.init (.open_account "youth" (some "X")) = c5D1 := by
    norm_num [Bank.step, Bank.init, Bank.open_account, AccountFactory.make,
      Account.new, dictGet, dictInsert, lower_youth, ne_X_fee, c5D1]
  have e2 : Bank.step c5D1 (.open_account "private" (some "FEE-0001")) = c5D2 := by
    norm_num [Bank.step, Bank.open_account, AccountFactory.make, Account.new,
      dictGet, dictInsert, lower_private, ne_private_youth, ne_private_savings,
      c5D1, c5D2]
  rw [hrun, e1, e2]

/-- Counterexample to C5 as stated: after `open_account` replaces the
registry entry "FEE-0001" with a fresh private account, a transfer naming
"FEE-0001" as the debit account succeeds (returns `True`) and drives the
balance registered under "FEE-0001" down to -101. -/
theorem c5_counterexample :
    ((Bank.run [.open_account "youth" (some "X"),
        .open_account "private" (some "FEE-0001")]).transfer "FEE-0001" "X" 100 "").2 =
      true ∧
    ((Bank.run [.open_account "youth" (some "X"),
        .open_account "private" (some "FEE-0001")]).transfer "FEE-0001" "X" 100
        "").1.get_balance "FEE-0001" = some (-101) := by
  refine ⟨?_, ?_⟩ <;> rw [c5_run_eval] <;>
    norm_num [Bank.transfer, Bank.execute_transaction, execDebit, execCredit,
      Bank.get_balance, Account.can_withdraw, Account.calculate_fee,
      WithdrawalPolicy.can_withdraw, FeePolicy.calculate_fee, Account.withdraw_amount,
      Account.deposit_amount, Account.record_transaction, Account.new, dictGet,
      dictInsert, c5D2, c5D1, ne_X_fee]

end BankV2
